import Mathlib

/-!
Verification of the `simple` authentication middleware of dino-park-gate
(`src/simple.rs`).

The middleware intercepts each request: requests whose method is `OPTIONS`
bypass authentication; otherwise the `AUTHORIZATION` header must be present,
decode to text, carry a `"Bearer "`-prefixed token, and the token must pass
`verify_and_decode` and `check` before the request is forwarded downstream.

The embedding below follows the Rust source:
* `getToken` models `get_token` (lines 94-99), including Rust's byte-indexed
  checked string slicing `auth_header.get(0..7)` / `auth_header.get(7..)`,
  which returns `None` when an index is out of range or not on a UTF-8
  character boundary.
* `SimpleAuthMiddleware.call` models `SimpleAuthMiddleware::call`
  (lines 66-91), instrumented with a `Calls` record of which external
  collaborators (extractor, checker, downstream service) were invoked and
  with which arguments, so that never-invoked claims are directly statable.
-/

namespace DinoParkGate

/-- Rust `s.get(0..n)` on UTF-8 strings, at the level of the character list:
returns the characters making up the first `n` BYTES when byte index `n`
falls on a character boundary (which includes `n ≤` byte length), and
`none` otherwise. -/
def takeBytes : List Char → Nat → Option (List Char)
  | _, 0 => some []
  | [], _ + 1 => none
  | c :: cs, n + 1 =>
    if c.utf8Size ≤ n + 1 then (takeBytes cs (n + 1 - c.utf8Size)).map (c :: ·)
    else none

/-- Rust `s.get(n..)` on UTF-8 strings, at the level of the character list:
returns the characters after the first `n` BYTES when byte index `n` falls
on a character boundary, and `none` otherwise. -/
def dropBytes : List Char → Nat → Option (List Char)
  | cs, 0 => some cs
  | [], _ + 1 => none
  | c :: cs, n + 1 =>
    if c.utf8Size ≤ n + 1 then dropBytes cs (n + 1 - c.utf8Size)
    else none

/-- Rust `s.is_char_boundary(n)`: byte index `n` is `0`, the total byte
length, or the start of a character. -/
def isBoundary : List Char → Nat → Bool
  | _, 0 => true
  | [], _ + 1 => false
  | c :: cs, n + 1 =>
    if c.utf8Size ≤ n + 1 then isBoundary cs (n + 1 - c.utf8Size)
    else false

/-- Embedding of `get_token` (src/simple.rs lines 94-99):

```rust
fn get_token(auth_header: &str) -> Option<&str> {
    match auth_header.get(0..7) {
        Some("Bearer ") => auth_header.get(7..),
        _ => None,
    }
}
``` -/
def getToken (auth_header : String) : Option String :=
  match takeBytes auth_header.data 7 with
  | some l => if String.mk l = "Bearer " then (dropBytes auth_header.data 7).map String.mk else none
  | none => none

/-- An inbound request: a method token and a header collection looked up by
name. Header values are raw byte sequences, as in `actix_web` a header value
need not be valid text. -/
structure Request where
  method : String
  headers : List (String × List Nat)
deriving DecidableEq

/-- Embedding of `req.headers().get(name)`: the first header value stored
under `name`. -/
def getHeader (req : Request) (name : String) : Option (List Nat) :=
  (req.headers.find? (fun p => p.1 == name)).map Prod.snd

/-- Model of `HeaderValue::to_str()`: succeeds exactly when every byte is
visible ASCII (32..=126) or horizontal tab, yielding the corresponding
text. -/
def headerToStr (value : List Nat) : Option String :=
  if value.all (fun b => (32 ≤ b && b < 127) || b == 9) then
    some (String.mk (value.map Char.ofNat))
  else none

/-- Instrumentation record: which external collaborators
`SimpleAuthMiddleware::call` invoked, and with which arguments.
`extractorArg` is the string passed to `get_token` (if invoked),
`verifyTok` the token passed to `checker.verify_and_decode` (if invoked),
`checkInvoked` whether `T::check` was invoked, and `downstreamReq` the
request passed to `service.call` (if invoked). -/
structure Calls where
  extractorArg : Option String
  verifyTok : Option String
  checkInvoked : Bool
  downstreamReq : Option Request
deriving DecidableEq

/-- Terminal outcome of one interception, as observed by the caller:
the downstream result (with the request that was forwarded), the locally
produced `ServiceError::Unauthorized`, or a decode error propagated verbatim
from `verify_and_decode`. -/
inductive Outcome (R E : Type) where
  | forwarded : Request → R → Outcome R E
  | unauthorized : Outcome R E
  | propagated : E → Outcome R E
deriving DecidableEq

/-- Embedding of `SimpleAuthMiddleware::call` (src/simple.rs lines 66-91),
instrumented with a `Calls` record. The checker is passed as its two
operations `verify_and_decode : String → Except E C` and
`check : C → V → Except F Unit`; the downstream service is a function
`service : Request → R` whose result is returned verbatim on forwarding.

```rust
fn call(&mut self, req: ServiceRequest) -> Self::Future {
    if req.method() == "OPTIONS" {
        return Box::pin(self.service.borrow_mut().call(req));
    }
    let auth_header = match req.headers().get("AUTHORIZATION") {
        Some(value) => value.to_str().ok(),
        None => return Box::pin(future::err(ServiceError::Unauthorized.into())),
    };
    if let Some(auth_header) = auth_header {
        if let Some(token) = get_token(auth_header) {
            ...
            let fut = self.checker.verify_and_decode(token.to_owned());
            return Box::pin(async move {
                let claim_set = fut.map_err(Error::from).await?;
                match T::check(&claim_set, validation_options) {
                    Ok(_) => svc.borrow_mut().call(req).await,
                    Err(_) => Err(ServiceError::Unauthorized.into()),
                }
            });
        }
    }
    Box::pin(future::err(ServiceError::Unauthorized.into()))
}
``` -/
def SimpleAuthMiddleware.call {C E F V R : Type} (verify_and_decode : String → Except E C)
    (check : C → V → Except F Unit) (validation_options : V)
    (service : Request → R) (req : Request) : Outcome R E × Calls :=
  if req.method = "OPTIONS" then
    (.forwarded req (service req), ⟨none, none, false, some req⟩)
  else
    match getHeader req "AUTHORIZATION" with
    | none => (.unauthorized, ⟨none, none, false, none⟩)
    | some value =>
      match headerToStr value with
      | none => (.unauthorized, ⟨none, none, false, none⟩)
      | some auth_header =>
        match getToken auth_header with
        | none => (.unauthorized, ⟨some auth_header, none, false, none⟩)
        | some token =>
          match verify_and_decode token with
          | .error e => (.propagated e, ⟨some auth_header, some token, false, none⟩)
          | .ok claim_set =>
            match check claim_set validation_options with
            | .ok _ => (.forwarded req (service req), ⟨some auth_header, some token, true, some req⟩)
            | .error _ => (.unauthorized, ⟨some auth_header, some token, true, none⟩)

/-- Embedding of `SimpleAuthMiddleware::poll_ready` (src/simple.rs lines
62-64): it delegates to the inner service's `poll_ready`, returning its
result unchanged. -/
def SimpleAuthMiddleware.poll_ready {P : Type} (inner_result : P) : P :=
  inner_result

/-- The four conditions under which `SimpleAuthMiddleware::call` produces a
local `Unauthorized` rejection: authorization header absent; present but not
decodable as text; decodable but without the `"Bearer "` pattern; or claims
decoded successfully but rejected by `check`. -/
def locallyRejected {C E F V : Type} (vd : String → Except E C)
    (ck : C → V → Except F Unit) (vo : V) (req : Request) : Prop :=
  req.method ≠ "OPTIONS" ∧
    (getHeader req "AUTHORIZATION" = none ∨
      (∃ value, getHeader req "AUTHORIZATION" = some value ∧ headerToStr value = none) ∨
      (∃ value s, getHeader req "AUTHORIZATION" = some value ∧ headerToStr value = some s ∧
        getToken s = none) ∨
      (∃ value s tok c f, getHeader req "AUTHORIZATION" = some value ∧
        headerToStr value = some s ∧ getToken s = some tok ∧
        vd tok = Except.ok c ∧ ck c vo = Except.error f))

/-- Fixtures used by the closed witness statements below. -/
def reqOptions : Request := ⟨"OPTIONS", []⟩

def reqNoAuth : Request := ⟨"GET", []⟩

def bearerXBytes : List Nat := [66, 101, 97, 114, 101, 114, 32, 120]

def reqBearerX : Request := ⟨"GET", [("AUTHORIZATION", bearerXBytes)]⟩

def bearerEmptyBytes : List Nat := [66, 101, 97, 114, 101, 114, 32]

def reqBearerEmpty : Request := ⟨"GET", [("AUTHORIZATION", bearerEmptyBytes)]⟩

def vdOk : String → Except Nat Nat := fun _ => Except.ok 0

def vdOkAlt : String → Except Nat Nat := fun _ => Except.ok (2 * 0)

def vdErr : String → Except Nat Nat := fun _ => Except.error 7

def ckOk : Nat → Nat → Except Nat Unit := fun _ _ => Except.ok ()

def ckErr : Nat → Nat → Except Nat Unit := fun _ _ => Except.error 3

def svcNat : Request → Nat := fun _ => 42

theorem takeBytes_isSome_eq_isBoundary (cs : List Char) :
    ∀ n, (takeBytes cs n).isSome = isBoundary cs n := by
  induction cs with
  | nil =>
    intro n
    cases n with
    | zero => rfl
    | succ n => rfl
  | cons c cs ih =>
    intro n
    cases n with
    | zero => rfl
    | succ n =>
      simp only [takeBytes, isBoundary]
      by_cases h : c.utf8Size ≤ n + 1
      · simp [h, ih]
      · simp [h]

theorem takeBytes_eq_some_imp (cs : List Char) :
    ∀ n l, takeBytes cs n = some l → l <+: cs := by
  induction cs with
  | nil =>
    intro n l h
    cases n with
    | zero =>
      simp only [takeBytes, Option.some.injEq] at h
      simp [← h]
    | succ n => simp [takeBytes] at h
  | cons c cs ih =>
    intro n l h
    cases n with
    | zero =>
      simp only [takeBytes, Option.some.injEq] at h
      simp [← h]
    | succ n =>
      simp only [takeBytes] at h
      by_cases hc : c.utf8Size ≤ n + 1
      · rw [if_pos hc] at h
        rcases Option.map_eq_some'.mp h with ⟨l', hl', rfl⟩
        rcases ih _ _ hl' with ⟨t, ht⟩
        exact ⟨t, by simp [ht]⟩
      · rw [if_neg hc] at h
        exact absurd h (by simp)

theorem ascii_takeBytes :
    ∀ (p cs rest : List Char), (∀ c ∈ p, c.utf8Size = 1) → cs = p ++ rest →
      takeBytes cs p.length = some p ∧ dropBytes cs p.length = some rest := by
  intro p
  induction p with
  | nil =>
    intro cs rest _ h
    have h' : cs = rest := by simpa using h
    rw [h']
    constructor
    · show takeBytes rest 0 = some []
      cases rest <;> rfl
    · show dropBytes rest 0 = some rest
      cases rest <;> rfl
  | cons a p ih =>
    intro cs rest hp h
    subst h
    have ha : a.utf8Size = 1 := hp a (by simp)
    have hp' : ∀ c ∈ p, c.utf8Size = 1 := fun c hc => hp c (by simp [hc])
    have ih' := ih (p ++ rest) rest hp' rfl
    constructor
    · show takeBytes (a :: (p ++ rest)) (p.length + 1) = some (a :: p)
      simp only [takeBytes, ha]
      rw [if_pos (by omega)]
      simp only [Nat.add_sub_cancel, List.append_eq]
      rw [ih'.1]
      rfl
    · show dropBytes (a :: (p ++ rest)) (p.length + 1) = some rest
      simp only [dropBytes, ha]
      rw [if_pos (by omega)]
      simp only [Nat.add_sub_cancel, List.append_eq]
      exact ih'.2

theorem bearer_chars_ascii : ∀ c ∈ "Bearer ".data, c.utf8Size = 1 := by decide

/-- Characterisation of `getToken`: it strips an exact `"Bearer "` character
prefix and returns the remainder, and returns `none` otherwise. -/
theorem getToken_eq_if (s : String) :
    getToken s =
      if s.data.take 7 = "Bearer ".data then some (String.mk (s.data.drop 7)) else none := by
  by_cases h : s.data.take 7 = "Bearer ".data
  · rw [if_pos h]
    have hsplit : s.data = "Bearer ".data ++ s.data.drop 7 := by
      conv_lhs => rw [← List.take_append_drop 7 s.data, h]
    have hlen : ("Bearer ".data).length = 7 := by decide
    have := ascii_takeBytes "Bearer ".data s.data (s.data.drop 7) bearer_chars_ascii hsplit
    rw [hlen] at this
    unfold getToken
    rw [this.1, this.2]
    simp
  · rw [if_neg h]
    unfold getToken
    cases htb : takeBytes s.data 7 with
    | none => rfl
    | some l =>
      have hpre : l <+: s.data := takeBytes_eq_some_imp s.data 7 l htb
      show (if String.mk l = "Bearer " then Option.map String.mk (dropBytes s.data 7) else none) =
        none
      rw [if_neg]
      intro hbearer
      have hl : l = "Bearer ".data := by
        have : ("Bearer ").data = (String.mk l).data := by rw [hbearer]
        simpa using this.symm
      subst hl
      have : "Bearer ".data = s.data.take ("Bearer ".data).length :=
        List.prefix_iff_eq_take.mp hpre
      have hlen : ("Bearer ".data).length = 7 := by decide
      rw [hlen] at this
      exact h this.symm

section CallEquations

variable {C E F V R : Type} (vd : String → Except E C) (ck : C → V → Except F Unit)
  (vo : V) (svc : Request → R) (req : Request)

theorem call_eq_of_options (h : req.method = "OPTIONS") :
    SimpleAuthMiddleware.call vd ck vo svc req =
      (.forwarded req (svc req), ⟨none, none, false, some req⟩) := by
  simp [SimpleAuthMiddleware.call, h]

theorem call_eq_of_no_header (hm : req.method ≠ "OPTIONS")
    (h : getHeader req "AUTHORIZATION" = none) :
    SimpleAuthMiddleware.call vd ck vo svc req =
      (.unauthorized, ⟨none, none, false, none⟩) := by
  simp [SimpleAuthMiddleware.call, hm, h]

theorem call_eq_of_bad_header (value : List Nat) (hm : req.method ≠ "OPTIONS")
    (h1 : getHeader req "AUTHORIZATION" = some value) (h2 : headerToStr value = none) :
    SimpleAuthMiddleware.call vd ck vo svc req =
      (.unauthorized, ⟨none, none, false, none⟩) := by
  simp [SimpleAuthMiddleware.call, hm, h1, h2]

theorem call_eq_of_no_token (value : List Nat) (s : String) (hm : req.method ≠ "OPTIONS")
    (h1 : getHeader req "AUTHORIZATION" = some value) (h2 : headerToStr value = some s)
    (h3 : getToken s = none) :
    SimpleAuthMiddleware.call vd ck vo svc req =
      (.unauthorized, ⟨some s, none, false, none⟩) := by
  simp [SimpleAuthMiddleware.call, hm, h1, h2, h3]

theorem call_eq_of_verify_error (value : List Nat) (s tok : String) (e : E)
    (hm : req.method ≠ "OPTIONS") (h1 : getHeader req "AUTHORIZATION" = some value)
    (h2 : headerToStr value = some s) (h3 : getToken s = some tok)
    (h4 : vd tok = .error e) :
    SimpleAuthMiddleware.call vd ck vo svc req =
      (.propagated e, ⟨some s, some tok, false, none⟩) := by
  simp [SimpleAuthMiddleware.call, hm, h1, h2, h3, h4]

theorem call_eq_of_check_ok (value : List Nat) (s tok : String) (c : C) (u : Unit)
    (hm : req.method ≠ "OPTIONS") (h1 : getHeader req "AUTHORIZATION" = some value)
    (h2 : headerToStr value = some s) (h3 : getToken s = some tok)
    (h4 : vd tok = .ok c) (h5 : ck c vo = .ok u) :
    SimpleAuthMiddleware.call vd ck vo svc req =
      (.forwarded req (svc req), ⟨some s, some tok, true, some req⟩) := by
  simp [SimpleAuthMiddleware.call, hm, h1, h2, h3, h4, h5]

theorem call_eq_of_check_error (value : List Nat) (s tok : String) (c : C) (f : F)
    (hm : req.method ≠ "OPTIONS") (h1 : getHeader req "AUTHORIZATION" = some value)
    (h2 : headerToStr value = some s) (h3 : getToken s = some tok)
    (h4 : vd tok = .ok c) (h5 : ck c vo = .error f) :
    SimpleAuthMiddleware.call vd ck vo svc req =
      (.unauthorized, ⟨some s, some tok, true, none⟩) := by
  simp [SimpleAuthMiddleware.call, hm, h1, h2, h3, h4, h5]

end CallEquations

theorem unauthorized_of_locallyRejected {C E F V R : Type} (vd : String → Except E C)
    (ck : C → V → Except F Unit) (vo : V) (svc : Request → R) (req : Request)
    (h : locallyRejected vd ck vo req) :
    (SimpleAuthMiddleware.call vd ck vo svc req).1 = Outcome.unauthorized := by
  obtain ⟨hm, hcase⟩ := h
  rcases hcase with h1 | ⟨value, h1, h2⟩ | ⟨value, s, h1, h2, h3⟩ |
    ⟨value, s, tok, c, f, h1, h2, h3, h4, h5⟩
  · rw [call_eq_of_no_header vd ck vo svc req hm h1]
  · rw [call_eq_of_bad_header vd ck vo svc req value hm h1 h2]
  · rw [call_eq_of_no_token vd ck vo svc req value s hm h1 h2 h3]
  · rw [call_eq_of_check_error vd ck vo svc req value s tok c f hm h1 h2 h3 h4 h5]

/-- Claim C1: a request is forwarded downstream if and only if its method is
`OPTIONS`, or the authorization header is present, converts to text, matches
the `"Bearer "` pattern, `verify_and_decode` succeeds on the extracted token,
and `check` accepts the decoded claims against the validation options. -/
theorem c1_forwarded_iff {C E F V R : Type} (vd : String → Except E C)
    (ck : C → V → Except F Unit) (vo : V) (svc : Request → R) (req : Request) :
    (∃ fr r, (SimpleAuthMiddleware.call vd ck vo svc req).1 = Outcome.forwarded fr r) ↔
      (req.method = "OPTIONS" ∨
        ∃ value s tok c u,
          getHeader req "AUTHORIZATION" = some value ∧ headerToStr value = some s ∧
          getToken s = some tok ∧ vd tok = Except.ok c ∧ ck c vo = Except.ok u) := by
  by_cases hm : req.method = "OPTIONS"
  · rw [call_eq_of_options vd ck vo svc req hm]
    simp [hm]
  · cases h1 : getHeader req "AUTHORIZATION" with
    | none =>
      rw [call_eq_of_no_header vd ck vo svc req hm h1]
      simp [hm, h1]
    | some value =>
      cases h2 : headerToStr value with
      | none =>
        rw [call_eq_of_bad_header vd ck vo svc req value hm h1 h2]
        simp [hm, h1, h2]
      | some s =>
        cases h3 : getToken s with
        | none =>
          rw [call_eq_of_no_token vd ck vo svc req value s hm h1 h2 h3]
          simp [hm, h1, h2, h3]
        | some tok =>
          cases h4 : vd tok with
          | error e =>
            rw [call_eq_of_verify_error vd ck vo svc req value s tok e hm h1 h2 h3 h4]
            simp [hm, h1, h2, h3, h4]
          | ok c =>
            cases h5 : ck c vo with
            | error f =>
              rw [call_eq_of_check_error vd ck vo svc req value s tok c f hm h1 h2 h3 h4 h5]
              simp [hm, h1, h2, h3, h4, h5]
            | ok u =>
              rw [call_eq_of_check_ok vd ck vo svc req value s tok c u hm h1 h2 h3 h4 h5]
              simp [hm, h1, h2, h3, h4, h5]

/-- Claim C2: the token extractor returns the remainder after the exact
case-sensitive 7-character `"Bearer "` prefix, and `none` whenever the input
is shorter than 7 characters or its first 7 characters differ from that
literal; in particular on `"Bearer FOOBAR"`, `"bearer foo"` and `"Bearer"`. -/
theorem c2_extractor_contract :
    (∀ s : String, getToken s =
        if s.data.take 7 = "Bearer ".data then some (String.mk (s.data.drop 7)) else none) ∧
      getToken "Bearer FOOBAR" = some "FOOBAR" ∧
      getToken "bearer foo" = none ∧
      getToken "Bearer" = none :=
  ⟨getToken_eq_if, by decide, by decide, by decide⟩

/-- Claim C3: an `OPTIONS` request is forwarded directly to the downstream service
with its result returned verbatim, whatever the headers hold; neither the
token extractor nor the checker is invoked on that path. -/
theorem c3_options_bypass {C E F V R : Type} (vd : String → Except E C)
    (ck : C → V → Except F Unit) (vo : V) (svc : Request → R) (req : Request)
    (h : req.method = "OPTIONS") :
    SimpleAuthMiddleware.call vd ck vo svc req =
      (.forwarded req (svc req), ⟨none, none, false, some req⟩) :=
  call_eq_of_options vd ck vo svc req h

theorem c3_options_bypass_witness :
    SimpleAuthMiddleware.call vdOk ckOk 0 svcNat reqOptions =
      (.forwarded reqOptions 42, ⟨none, none, false, some reqOptions⟩) :=
  c3_options_bypass vdOk ckOk 0 svcNat reqOptions rfl

/-- Claim C4: every non-OPTIONS request with the header absent, non-textual,
missing the bearer pattern, or whose decoded claims `check` rejects, yields
the local `Unauthorized` rejection with the downstream service never
invoked; in the first three cases `verify_and_decode` is never invoked. -/
theorem c4_unauthorized_paths {C E F V R : Type} (vd : String → Except E C)
    (ck : C → V → Except F Unit) (vo : V) (svc : Request → R) (req : Request)
    (h : locallyRejected vd ck vo req) :
    (SimpleAuthMiddleware.call vd ck vo svc req).1 = Outcome.unauthorized ∧
      (SimpleAuthMiddleware.call vd ck vo svc req).2.downstreamReq = none ∧
      ((getHeader req "AUTHORIZATION" = none ∨
          (∃ value, getHeader req "AUTHORIZATION" = some value ∧ headerToStr value = none) ∨
          (∃ value s, getHeader req "AUTHORIZATION" = some value ∧
            headerToStr value = some s ∧ getToken s = none)) →
        (SimpleAuthMiddleware.call vd ck vo svc req).2.verifyTok = none) := by
  obtain ⟨hm, hcase⟩ := h
  rcases hcase with h1 | ⟨value, h1, h2⟩ | ⟨value, s, h1, h2, h3⟩ |
    ⟨value, s, tok, c, f, h1, h2, h3, h4, h5⟩
  · rw [call_eq_of_no_header vd ck vo svc req hm h1]
    exact ⟨rfl, rfl, fun _ => rfl⟩
  · rw [call_eq_of_bad_header vd ck vo svc req value hm h1 h2]
    exact ⟨rfl, rfl, fun _ => rfl⟩
  · rw [call_eq_of_no_token vd ck vo svc req value s hm h1 h2 h3]
    exact ⟨rfl, rfl, fun _ => rfl⟩
  · rw [call_eq_of_check_error vd ck vo svc req value s tok c f hm h1 h2 h3 h4 h5]
    refine ⟨rfl, rfl, fun h' => ?_⟩
    exfalso
    rcases h' with h' | ⟨v2, hv2, hh2⟩ | ⟨v2, s2, hv2, hs2, ht2⟩
    · rw [h1] at h'
      exact Option.noConfusion h'
    · rw [h1] at hv2
      have hv := Option.some.inj hv2
      rw [← hv, h2] at hh2
      exact Option.noConfusion hh2
    · rw [h1] at hv2
      have hv := Option.some.inj hv2
      rw [← hv, h2] at hs2
      have hs := Option.some.inj hs2
      rw [← hs, h3] at ht2
      exact Option.noConfusion ht2

theorem c4_unauthorized_paths_witness :
    (SimpleAuthMiddleware.call vdOk ckOk 0 svcNat reqNoAuth).1 = Outcome.unauthorized ∧
      (SimpleAuthMiddleware.call vdOk ckOk 0 svcNat reqNoAuth).2.downstreamReq = none ∧
      ((getHeader reqNoAuth "AUTHORIZATION" = none ∨
          (∃ value, getHeader reqNoAuth "AUTHORIZATION" = some value ∧
            headerToStr value = none) ∨
          (∃ value s, getHeader reqNoAuth "AUTHORIZATION" = some value ∧
            headerToStr value = some s ∧ getToken s = none)) →
        (SimpleAuthMiddleware.call vdOk ckOk 0 svcNat reqNoAuth).2.verifyTok = none) :=
  c4_unauthorized_paths vdOk ckOk 0 svcNat reqNoAuth ⟨by decide, Or.inl rfl⟩

/-- Claim C5: when `verify_and_decode` fails on the extracted bearer token, the
middleware returns that original decode error (not normalised to
`Unauthorized`), `check` is never invoked, and the downstream service is
never invoked. -/
theorem c5_decode_error_propagated {C E F V R : Type} (vd : String → Except E C)
    (ck : C → V → Except F Unit) (vo : V) (svc : Request → R) (req : Request)
    (value : List Nat) (s tok : String) (e : E) (hm : req.method ≠ "OPTIONS")
    (h1 : getHeader req "AUTHORIZATION" = some value) (h2 : headerToStr value = some s)
    (h3 : getToken s = some tok) (h4 : vd tok = .error e) :
    (SimpleAuthMiddleware.call vd ck vo svc req).1 = Outcome.propagated e ∧
      (SimpleAuthMiddleware.call vd ck vo svc req).2.checkInvoked = false ∧
      (SimpleAuthMiddleware.call vd ck vo svc req).2.downstreamReq = none := by
  rw [call_eq_of_verify_error vd ck vo svc req value s tok e hm h1 h2 h3 h4]
  exact ⟨rfl, rfl, rfl⟩

theorem c5_decode_error_propagated_witness :
    (SimpleAuthMiddleware.call vdErr ckOk 0 svcNat reqBearerX).1 = Outcome.propagated 7 ∧
      (SimpleAuthMiddleware.call vdErr ckOk 0 svcNat reqBearerX).2.checkInvoked = false ∧
      (SimpleAuthMiddleware.call vdErr ckOk 0 svcNat reqBearerX).2.downstreamReq = none :=
  c5_decode_error_propagated vdErr ckOk 0 svcNat reqBearerX bearerXBytes "Bearer x" "x" 7
    (by decide) rfl (by decide) (by decide) rfl

/-- Claim C6: whenever the middleware forwards, the downstream service receives the
original request unmodified and its result is returned without
transformation; `poll_ready` forwards the inner service's readiness signal
transparently. -/
theorem c6_forwarding_frame {C E F V R P : Type} (vd : String → Except E C)
    (ck : C → V → Except F Unit) (vo : V) (svc : Request → R) (req : Request)
    (fr : Request) (r : R) (p : P)
    (h : (SimpleAuthMiddleware.call vd ck vo svc req).1 = Outcome.forwarded fr r) :
    fr = req ∧ r = svc req ∧ SimpleAuthMiddleware.poll_ready p = p := by
  by_cases hm : req.method = "OPTIONS"
  · rw [call_eq_of_options vd ck vo svc req hm] at h
    simp only [Outcome.forwarded.injEq] at h
    exact ⟨h.1.symm, h.2.symm, rfl⟩
  · cases h1 : getHeader req "AUTHORIZATION" with
    | none =>
      rw [call_eq_of_no_header vd ck vo svc req hm h1] at h
      exact Outcome.noConfusion h
    | some value =>
      cases h2 : headerToStr value with
      | none =>
        rw [call_eq_of_bad_header vd ck vo svc req value hm h1 h2] at h
        exact Outcome.noConfusion h
      | some s =>
        cases h3 : getToken s with
        | none =>
          rw [call_eq_of_no_token vd ck vo svc req value s hm h1 h2 h3] at h
          exact Outcome.noConfusion h
        | some tok =>
          cases h4 : vd tok with
          | error e =>
            rw [call_eq_of_verify_error vd ck vo svc req value s tok e hm h1 h2 h3 h4] at h
            exact Outcome.noConfusion h
          | ok c =>
            cases h5 : ck c vo with
            | error f =>
              rw [call_eq_of_check_error vd ck vo svc req value s tok c f hm h1 h2 h3 h4 h5] at h
              exact Outcome.noConfusion h
            | ok u =>
              rw [call_eq_of_check_ok vd ck vo svc req value s tok c u hm h1 h2 h3 h4 h5] at h
              simp only [Outcome.forwarded.injEq] at h
              exact ⟨h.1.symm, h.2.symm, rfl⟩

theorem c6_forwarding_frame_witness :
    reqOptions = reqOptions ∧ (42 : Nat) = svcNat reqOptions ∧
      SimpleAuthMiddleware.poll_ready (5 : Nat) = 5 :=
  c6_forwarding_frame vdOk ckOk 0 svcNat reqOptions reqOptions 42 5 rfl

/-- Claim C7: the pipeline is deterministic: with extensionally equal checker
behaviour and equal validation options, service and request, the whole
interception result (classification and instrumentation) is identical. -/
theorem c7_deterministic {C E F V R : Type} (vd1 vd2 : String → Except E C)
    (ck1 ck2 : C → V → Except F Unit) (vo : V) (svc : Request → R) (req : Request)
    (hv : ∀ t, vd1 t = vd2 t) (hc : ∀ c v, ck1 c v = ck2 c v) :
    SimpleAuthMiddleware.call vd1 ck1 vo svc req =
      SimpleAuthMiddleware.call vd2 ck2 vo svc req := by
  have h1 : vd1 = vd2 := funext hv
  have h2 : ck1 = ck2 := funext fun c => funext fun v => hc c v
  rw [h1, h2]

theorem c7_deterministic_witness :
    SimpleAuthMiddleware.call vdOk ckOk 0 svcNat reqBearerX =
      SimpleAuthMiddleware.call vdOkAlt ckOk 0 svcNat reqBearerX :=
  c7_deterministic vdOk vdOkAlt ckOk ckOk 0 svcNat reqBearerX (fun _ => rfl) (fun _ _ => rfl)

/-- Claim C8: on the input consisting of exactly `"Bearer "` the extractor returns
the empty token rather than nothing, so for a request carrying that header
the middleware invokes `verify_and_decode` with the empty string instead of
rejecting locally. -/
theorem c8_empty_token :
    getToken "Bearer " = some "" ∧
      ∀ (C E F V R : Type) (vd : String → Except E C) (ck : C → V → Except F Unit)
        (vo : V) (svc : Request → R),
        (SimpleAuthMiddleware.call vd ck vo svc reqBearerEmpty).2.verifyTok = some "" := by
  refine ⟨by decide, ?_⟩
  intro C E F V R vd ck vo svc
  cases h4 : vd "" with
  | error e =>
    rw [call_eq_of_verify_error vd ck vo svc reqBearerEmpty bearerEmptyBytes "Bearer " "" e
      (by decide) rfl (by decide) (by decide) h4]
  | ok c =>
    cases h5 : ck c vo with
    | error f =>
      rw [call_eq_of_check_error vd ck vo svc reqBearerEmpty bearerEmptyBytes "Bearer " "" c f
        (by decide) rfl (by decide) (by decide) h4 h5]
    | ok u =>
      rw [call_eq_of_check_ok vd ck vo svc reqBearerEmpty bearerEmptyBytes "Bearer " "" c u
        (by decide) rfl (by decide) (by decide) h4 h5]

/-- Claim C9: the extractor is total and uses checked slicing: whenever byte index
7 of the input does not fall on a UTF-8 character boundary (in particular
when the 7th byte lies inside a multi-byte character), it returns `none`
rather than failing. -/
theorem c9_checked_slicing (s : String) (h : isBoundary s.data 7 = false) :
    getToken s = none := by
  cases htb : takeBytes s.data 7 with
  | none =>
    unfold getToken
    rw [htb]
  | some l =>
    have hb := takeBytes_isSome_eq_isBoundary s.data 7
    rw [htb, h] at hb
    simp at hb

theorem c9_checked_slicing_witness :
    isBoundary "abcdefé".data 7 = false ∧ getToken "abcdefé" = none :=
  ⟨by decide, c9_checked_slicing "abcdefé" (by decide)⟩

/-- Claim C10: all four locally produced rejections (absent header, non-textual
header, missing bearer pattern, claims rejected by `check`) yield the same
`Unauthorized` outcome value, so the caller cannot tell from the returned
error alone which condition caused the rejection. -/
theorem c10_rejections_indistinguishable {C E F V R : Type}
    (vd1 : String → Except E C) (ck1 : C → V → Except F Unit) (vo1 : V)
    (svc1 : Request → R) (req1 : Request)
    (vd2 : String → Except E C) (ck2 : C → V → Except F Unit) (vo2 : V)
    (svc2 : Request → R) (req2 : Request)
    (h1 : locallyRejected vd1 ck1 vo1 req1) (h2 : locallyRejected vd2 ck2 vo2 req2) :
    (SimpleAuthMiddleware.call vd1 ck1 vo1 svc1 req1).1 =
      (SimpleAuthMiddleware.call vd2 ck2 vo2 svc2 req2).1 ∧
    (SimpleAuthMiddleware.call vd1 ck1 vo1 svc1 req1).1 = Outcome.unauthorized := by
  rw [unauthorized_of_locallyRejected vd1 ck1 vo1 svc1 req1 h1,
    unauthorized_of_locallyRejected vd2 ck2 vo2 svc2 req2 h2]
  exact ⟨rfl, rfl⟩

theorem c10_rejections_indistinguishable_witness :
    (SimpleAuthMiddleware.call vdOk ckOk 0 svcNat reqNoAuth).1 =
        (SimpleAuthMiddleware.call vdOk ckErr 0 svcNat reqBearerX).1 ∧
      (SimpleAuthMiddleware.call vdOk ckOk 0 svcNat reqNoAuth).1 = Outcome.unauthorized :=
  c10_rejections_indistinguishable vdOk ckOk 0 svcNat reqNoAuth vdOk ckErr 0 svcNat reqBearerX
    ⟨by decide, Or.inl rfl⟩
    ⟨by decide, Or.inr (Or.inr (Or.inr
      ⟨bearerXBytes, "Bearer x", "x", 0, 3, rfl, by decide, by decide, rfl, rfl⟩))⟩

end DinoParkGate
